import Mathlib

/-!
Shallow embedding of the MovieLens top-20 ranking pipeline
(`Scripts/build_db.py`, `main.py`, `analysis.py`, `app/main.py`).

Modelling conventions:
* a pandas `DataFrame` of ratings is a `List RawRating`; each column value that
  can be missing (`NaN`) is an `Option`;
* floats are modelled as exact rationals `ℚ`;
* SQL result sets are Lean lists in the store's row order.
-/

namespace MovieLens

/-- A row of `ratings.csv` as loaded by pandas: any field may be missing. -/
structure RawRating where
  userId : Option Int
  movieId : Option Int
  rating : Option ℚ
  timestamp : Option Int
deriving DecidableEq, Repr

/-- `ratings.dropna(how="all")` drops a row iff every field is missing. -/
def isAllEmpty (r : RawRating) : Bool :=
  r.userId.isNone && r.movieId.isNone && r.rating.isNone && r.timestamp.isNone

/-- `ratings.dropna(subset=["userId", "movieId", "rating"])` keeps a row iff
the three key fields are all present. -/
def hasKeyFields (r : RawRating) : Bool :=
  r.userId.isSome && r.movieId.isSome && r.rating.isSome

/-- The boolean mask `(ratings["rating"] >= 0.5) & (ratings["rating"] <= 5.0)`;
a missing rating compares false, as NaN does in pandas. -/
def ratingInRange (r : RawRating) : Bool :=
  match r.rating with
  | some x => decide ((1 : ℚ)/2 ≤ x) && decide (x ≤ 5)
  | none => false

/-- Generic key-based first-occurrence deduplication, accumulating the keys
already seen. `drop_duplicates()` is the special case `key = id`, and
`drop_duplicates("movieId")` uses the `movieId` projection. -/
def dedupBySeen {α κ : Type} [DecidableEq κ] (key : α → κ) (seen : List κ) :
    List α → List α
  | [] => []
  | x :: xs =>
    if key x ∈ seen then dedupBySeen key seen xs
    else x :: dedupBySeen key (key x :: seen) xs

/-- `df.drop_duplicates(...)`: keep the first row for each key. -/
def drop_duplicates_by {α κ : Type} [DecidableEq κ] (key : α → κ)
    (l : List α) : List α :=
  dedupBySeen key [] l

/-- `clean_ratings` from `Scripts/build_db.py` (identical in `analysis.py`):
drop all-empty rows, drop exact duplicates, drop rows missing a key field,
keep only ratings in `[0.5, 5.0]`. -/
def clean_ratings (ratings : List RawRating) : List RawRating :=
  ((drop_duplicates_by id
      (ratings.filter (fun r => !(isAllEmpty r)))).filter
    hasKeyFields).filter ratingInRange

/-! ### Generic lemmas about the deduplication pass -/

theorem dedupBySeen_sublist {α κ : Type} [DecidableEq κ] (key : α → κ) :
    ∀ (l : List α) (seen : List κ), List.Sublist (dedupBySeen key seen l) l := by
  intro l
  induction l with
  | nil => intro seen; simp [dedupBySeen]
  | cons x xs ih =>
    intro seen
    simp only [dedupBySeen]
    by_cases h : key x ∈ seen
    · simp only [h, if_true]
      exact (ih seen).cons x
    · simp only [h, if_false]
      exact (ih (key x :: seen)).cons₂ x

theorem dedupBySeen_keys_not_seen {α κ : Type} [DecidableEq κ] (key : α → κ) :
    ∀ (l : List α) (seen : List κ) (a : α), a ∈ dedupBySeen key seen l →
      key a ∉ seen := by
  intro l
  induction l with
  | nil => intro seen a ha; simp [dedupBySeen] at ha
  | cons x xs ih =>
    intro seen a ha
    simp only [dedupBySeen] at ha
    by_cases h : key x ∈ seen
    · simp only [h, if_true] at ha
      exact ih seen a ha
    · simp only [h, if_false, List.mem_cons] at ha
      rcases ha with rfl | ha
      · exact h
      · intro hmem
        exact ih (key x :: seen) a ha (List.mem_cons_of_mem _ hmem)

theorem dedupBySeen_keys_nodup {α κ : Type} [DecidableEq κ] (key : α → κ) :
    ∀ (l : List α) (seen : List κ),
      ((dedupBySeen key seen l).map key).Nodup := by
  intro l
  induction l with
  | nil => intro seen; simp [dedupBySeen]
  | cons x xs ih =>
    intro seen
    simp only [dedupBySeen]
    by_cases h : key x ∈ seen
    · simp only [h, if_true]; exact ih seen
    · simp only [h, if_false, List.map_cons, List.nodup_cons]
      refine ⟨?_, ih (key x :: seen)⟩
      intro hmem
      rcases List.mem_map.mp hmem with ⟨a, ha, hkey⟩
      refine dedupBySeen_keys_not_seen key xs (key x :: seen) a ha ?_
      rw [hkey]
      exact List.mem_cons_self _ _

theorem dedupBySeen_eq_self {α κ : Type} [DecidableEq κ] (key : α → κ) :
    ∀ (l : List α) (seen : List κ), (l.map key).Nodup →
      (∀ a ∈ l, key a ∉ seen) → dedupBySeen key seen l = l := by
  intro l
  induction l with
  | nil => intro seen _ _; simp [dedupBySeen]
  | cons x xs ih =>
    intro seen hnodup hdisj
    simp only [List.map_cons, List.nodup_cons] at hnodup
    have hx : key x ∉ seen := hdisj x (List.mem_cons_self _ _)
    simp only [dedupBySeen, hx, if_false]
    congr 1
    refine ih (key x :: seen) hnodup.2 ?_
    intro a ha
    simp only [List.mem_cons]
    rintro (heq | hmem)
    · exact hnodup.1 (List.mem_map.mpr ⟨a, ha, heq⟩)
    · exact hdisj a (List.mem_cons_of_mem _ ha) hmem

theorem drop_duplicates_by_sublist {α κ : Type} [DecidableEq κ] (key : α → κ)
    (l : List α) : List.Sublist (drop_duplicates_by key l) l :=
  dedupBySeen_sublist key l []

theorem drop_duplicates_by_keys_nodup {α κ : Type} [DecidableEq κ]
    (key : α → κ) (l : List α) : ((drop_duplicates_by key l).map key).Nodup :=
  dedupBySeen_keys_nodup key l []

theorem drop_duplicates_by_eq_self {α κ : Type} [DecidableEq κ] (key : α → κ)
    (l : List α) (h : (l.map key).Nodup) : drop_duplicates_by key l = l :=
  dedupBySeen_eq_self key l [] h (by simp)

/-! ### C6 and C7: cleaning is a filter, and is idempotent -/

theorem clean_ratings_sublist (X : List RawRating) :
    List.Sublist (clean_ratings X) X := by
  unfold clean_ratings
  refine List.Sublist.trans (List.filter_sublist _) ?_
  refine List.Sublist.trans (List.filter_sublist _) ?_
  refine List.Sublist.trans (drop_duplicates_by_sublist id _) ?_
  exact List.filter_sublist X

/-- C6: Cleaning is a pure filter: every row of `clean_ratings X` is
(bit-)identical to some row of `X`; cleaning removes rows but never transforms
a field value. -/
theorem clean_is_filter (X : List RawRating) :
    ∀ r ∈ clean_ratings X, r ∈ X := by
  intro r hr
  exact (clean_ratings_sublist X).subset hr

theorem clean_is_filter_witness :
    (⟨some 1, some 1, some 5, none⟩ : RawRating) ∈
        clean_ratings
          [⟨some 1, some 1, some 5, none⟩, ⟨none, none, none, none⟩] ∧
      (⟨some 1, some 1, some 5, none⟩ : RawRating) ∈
        [⟨some 1, some 1, some 5, none⟩, ⟨none, none, none, none⟩] := by
  have hclean : clean_ratings
      [⟨some 1, some 1, some 5, none⟩, ⟨none, none, none, none⟩] =
        [⟨some 1, some 1, some 5, none⟩] := by
    norm_num [clean_ratings, drop_duplicates_by, dedupBySeen, isAllEmpty,
      hasKeyFields, ratingInRange, List.filter]
  have hmem : (⟨some 1, some 1, some 5, none⟩ : RawRating) ∈
      clean_ratings
        [⟨some 1, some 1, some 5, none⟩, ⟨none, none, none, none⟩] := by
    rw [hclean]
    exact List.mem_singleton_self _
  exact ⟨hmem,
    clean_is_filter [⟨some 1, some 1, some 5, none⟩, ⟨none, none, none, none⟩]
      ⟨some 1, some 1, some 5, none⟩ hmem⟩

/-- Every row surviving `clean_ratings` passes every one of its masks. -/
theorem mem_clean_ratings_props (X : List RawRating) (r : RawRating)
    (hr : r ∈ clean_ratings X) :
    hasKeyFields r = true ∧ ratingInRange r = true := by
  unfold clean_ratings at hr
  have h3 := List.of_mem_filter hr
  have hr' := List.mem_of_mem_filter hr
  have h2 := List.of_mem_filter hr'
  exact ⟨h2, h3⟩

theorem clean_ratings_nodup (X : List RawRating) :
    (clean_ratings X).Nodup := by
  unfold clean_ratings
  refine List.Nodup.filter _ (List.Nodup.filter _ ?_)
  have h := drop_duplicates_by_keys_nodup id (X.filter (fun r => !(isAllEmpty r)))
  simpa using h

/-- C7: Cleaning is idempotent. -/
theorem clean_idempotent (X : List RawRating) :
    clean_ratings (clean_ratings X) = clean_ratings X := by
  have hpass : ∀ r ∈ clean_ratings X,
      hasKeyFields r = true ∧ ratingInRange r = true :=
    fun r hr => mem_clean_ratings_props X r hr
  have hneq : ∀ r ∈ clean_ratings X, (!(isAllEmpty r)) = true := by
    intro r hr
    have hk := (hpass r hr).1
    simp only [hasKeyFields, Bool.and_eq_true, Option.isSome_iff_exists] at hk
    obtain ⟨⟨⟨u, hu⟩, -⟩, -⟩ := hk
    simp [isAllEmpty, hu]
  have hnd := clean_ratings_nodup X
  set Y := clean_ratings X with hY
  show clean_ratings Y = Y
  unfold clean_ratings
  rw [List.filter_eq_self.mpr hneq]
  rw [drop_duplicates_by_eq_self id _ (by simpa using hnd)]
  rw [List.filter_eq_self.mpr (fun r hr => (hpass r hr).1)]
  rw [List.filter_eq_self.mpr (fun r hr => (hpass r hr).2)]

/-! ### Movie statistics aggregation (`build_movie_stats`) -/

/-- One row of the `movie_stats` frame produced by
`ratings.groupby("movieId")["rating"].agg(rating_count="count", avg_rating="mean")`. -/
structure MovieStats where
  movieId : Int
  rating_count : Nat
  avg_rating : ℚ
deriving DecidableEq, Repr

/-- The non-missing ratings of the rows whose `movieId` equals `k` (pandas
`count`/`mean` aggregate over the non-NaN values of the group). -/
def ratingsOf (ratings : List RawRating) (k : Int) : List ℚ :=
  (ratings.filter (fun r => r.movieId == some k)).filterMap (fun r => r.rating)

/-- The group keys of `groupby("movieId")`: the distinct non-missing movie ids,
in ascending order (pandas sorts group keys by default; rows with a missing
key are dropped). -/
def groupKeys (ratings : List RawRating) : List Int :=
  List.insertionSort (fun a b => a ≤ b)
    ((ratings.filterMap (fun r => r.movieId)).dedup)

/-- `build_movie_stats` from `Scripts/build_db.py`: per-movie rating count and
arithmetic-mean rating. -/
def build_movie_stats (ratings : List RawRating) : List MovieStats :=
  (groupKeys ratings).map (fun k =>
    { movieId := k
      rating_count := (ratingsOf ratings k).length
      avg_rating := (ratingsOf ratings k).sum / (ratingsOf ratings k).length })

/-! ### Bayesian scorer (`bayesian_weighted`) -/

/-- A `movie_stats` row after the `weighted_rating` column is added. -/
structure ScoredMovie where
  movieId : Int
  rating_count : Nat
  avg_rating : ℚ
  weighted_rating : ℚ
deriving DecidableEq, Repr

/-- `C = movie_stats["avg_rating"].mean()`: the unweighted mean of the
per-movie averages (each movie contributes one term, whatever its count). -/
def meanAvgRating (stats : List MovieStats) : ℚ :=
  (stats.map (fun s => s.avg_rating)).sum / stats.length

/-- The per-row formula
`(rating_count / (rating_count + m)) * avg_rating + (m / (rating_count + m)) * C`. -/
def shrink (n m avg C : ℚ) : ℚ :=
  (n / (n + m)) * avg + (m / (n + m)) * C

/-- `bayesian_weighted` from `Scripts/build_db.py` (identical in `main.py`):
adds the `weighted_rating` column in place and returns the same table. The
in-place pandas column assignment is modelled by the returned rows, which are
the argument's rows (same order) with the new column. -/
def bayesian_weighted (movie_stats : List MovieStats) (m : ℚ) :
    List ScoredMovie :=
  movie_stats.map (fun s =>
    { movieId := s.movieId
      rating_count := s.rating_count
      avg_rating := s.avg_rating
      weighted_rating :=
        shrink s.rating_count m s.avg_rating (meanAvgRating movie_stats) })

/-! ### C1: behaviour of the scorer on an empty input

The source has no `EmptyInputError` (the identifier appears nowhere in the
repository); on an empty `movie_stats` frame, pandas evaluates
`movie_stats["avg_rating"].mean()` to NaN and the column assignment over the
empty frame succeeds, so the call returns an empty table without raising. -/

/-- C1 (code behaviour at the failing input): `score([])` does not fail; it
returns an empty result. -/
theorem bayesian_weighted_empty : bayesian_weighted [] 1000 = [] := rfl

/-! ### C3: shrinkage bounds -/

theorem shrink_key (n : ℕ) (m avg C : ℚ) (hm : 0 < m) :
    shrink n m avg C = avg + (m / (n + m)) * (C - avg) := by
  have hpos : (0 : ℚ) < (n : ℚ) + m := by positivity
  unfold shrink
  field_simp
  ring

theorem shrink_bounds (n : ℕ) (m avg C : ℚ) (hm : 0 < m) :
    min avg C ≤ shrink n m avg C ∧ shrink n m avg C ≤ max avg C := by
  have hpos : (0 : ℚ) < (n : ℚ) + m := by positivity
  have hu0 : 0 < m / ((n : ℚ) + m) := by positivity
  have hu1 : m / ((n : ℚ) + m) ≤ 1 := by
    rw [div_le_one hpos]
    have : (0 : ℚ) ≤ (n : ℚ) := by positivity
    linarith
  rw [shrink_key n m avg C hm]
  rcases le_total avg C with h | h
  · rw [min_eq_left h, max_eq_right h]
    constructor
    · nlinarith
    · nlinarith
  · rw [min_eq_right h, max_eq_left h]
    constructor
    · nlinarith
    · nlinarith

/-- C3: every row the scorer produces (with `m = 1000`) has a
`weighted_rating` between `min(avg_rating, C)` and `max(avg_rating, C)`,
where `C` is the mean of `avg_rating` over all input rows. -/
theorem weighted_rating_bounds (stats : List MovieStats) (s : ScoredMovie)
    (hs : s ∈ bayesian_weighted stats 1000) :
    min s.avg_rating (meanAvgRating stats) ≤ s.weighted_rating ∧
      s.weighted_rating ≤ max s.avg_rating (meanAvgRating stats) := by
  rcases List.mem_map.mp hs with ⟨s0, _, rfl⟩
  exact shrink_bounds s0.rating_count 1000 s0.avg_rating (meanAvgRating stats)
    (by norm_num)

theorem scored_pair_eval :
    bayesian_weighted [⟨1, 2, 5⟩, ⟨2, 1, 1⟩] 1000 =
      [⟨1, 2, 5, 1505/501⟩, ⟨2, 1, 1, 3001/1001⟩] := by
  simp only [bayesian_weighted, meanAvgRating, shrink, List.map_cons,
    List.map_nil, List.sum_cons, List.sum_nil, List.length_cons,
    List.length_nil]
  norm_num

theorem weighted_rating_bounds_witness :
    (⟨1, 2, 5, 1505/501⟩ : ScoredMovie) ∈
        bayesian_weighted [⟨1, 2, 5⟩, ⟨2, 1, 1⟩] 1000 ∧
      (min (ScoredMovie.avg_rating ⟨1, 2, 5, 1505/501⟩)
            (meanAvgRating [⟨1, 2, 5⟩, ⟨2, 1, 1⟩]) ≤
          ScoredMovie.weighted_rating ⟨1, 2, 5, 1505/501⟩ ∧
        ScoredMovie.weighted_rating ⟨1, 2, 5, 1505/501⟩ ≤
          max (ScoredMovie.avg_rating ⟨1, 2, 5, 1505/501⟩)
            (meanAvgRating [⟨1, 2, 5⟩, ⟨2, 1, 1⟩])) := by
  have hmem : (⟨1, 2, 5, 1505/501⟩ : ScoredMovie) ∈
      bayesian_weighted [⟨1, 2, 5⟩, ⟨2, 1, 1⟩] 1000 := by
    rw [scored_pair_eval]
    exact List.mem_cons_self _ _
  exact ⟨hmem, weighted_rating_bounds [⟨1, 2, 5⟩, ⟨2, 1, 1⟩] _ hmem⟩

/-! ### C4: the formula for `C` and the concrete pipeline scenario -/

/-- The rating records `[(u1,m1,5.0),(u2,m1,5.0),(u3,m2,1.0)]`. -/
def scenarioRatings : List RawRating :=
  [⟨some 1, some 1, some 5, none⟩, ⟨some 2, some 1, some 5, none⟩,
   ⟨some 3, some 2, some 1, none⟩]

theorem clean_scenario_eval : clean_ratings scenarioRatings = scenarioRatings := by
  norm_num [clean_ratings, scenarioRatings, drop_duplicates_by, dedupBySeen,
    isAllEmpty, hasKeyFields, ratingInRange, List.filter]

theorem stats_scenario_eval :
    build_movie_stats scenarioRatings = [⟨1, 2, 5⟩, ⟨2, 1, 1⟩] := by
  norm_num [build_movie_stats, groupKeys, ratingsOf, scenarioRatings,
    List.filter, List.filterMap, List.dedup, List.insertionSort,
    List.orderedInsert, List.pwFilter]

/-- C4: the scorer computes `C` as the unweighted mean of `avg_rating` (one
term per movie) and applies
`(n/(n+m))*avg + (m/(n+m))*C`; on the ratings
`[(u1,m1,5.0),(u2,m1,5.0),(u3,m2,1.0)]` with `m = 1000` the pipeline yields
`C = 3`, `weighted_rating = 1505/501 ≈ 3.004` for movie 1 (count 2, avg 5) and
`3001/1001 ≈ 2.998` for movie 2 (count 1, avg 1). -/
theorem scorer_formula_and_scenario :
    (∀ (stats : List MovieStats) (m : ℚ),
        (bayesian_weighted stats m).map (fun s => s.weighted_rating) =
          stats.map (fun s =>
            ((s.rating_count : ℚ) / ((s.rating_count : ℚ) + m)) * s.avg_rating
              + (m / ((s.rating_count : ℚ) + m)) *
                ((stats.map (fun t => t.avg_rating)).sum / stats.length)))
    ∧ build_movie_stats (clean_ratings scenarioRatings) = [⟨1, 2, 5⟩, ⟨2, 1, 1⟩]
    ∧ meanAvgRating (build_movie_stats (clean_ratings scenarioRatings)) = 3
    ∧ bayesian_weighted (build_movie_stats (clean_ratings scenarioRatings)) 1000
        = [⟨1, 2, 5, 1505/501⟩, ⟨2, 1, 1, 3001/1001⟩]
    ∧ |(1505 : ℚ)/501 - 3004/1000| < 1/1000
    ∧ |(3001 : ℚ)/1001 - 2998/1000| < 1/1000 := by
  refine ⟨?_, ?_, ?_, ?_, ?_, ?_⟩
  · intro stats m
    simp only [bayesian_weighted, List.map_map]
    rfl
  · rw [clean_scenario_eval, stats_scenario_eval]
  · rw [clean_scenario_eval, stats_scenario_eval]
    norm_num [meanAvgRating]
  · rw [clean_scenario_eval, stats_scenario_eval, scored_pair_eval]
  · rw [abs_of_nonpos (by norm_num)]
    norm_num
  · rw [abs_of_nonneg (by norm_num)]
    norm_num

/-! ### C5: monotone convergence of the shrinkage formula -/

theorem shrink_dist (n : ℕ) (avg C : ℚ) :
    |shrink n 1000 avg C - avg| = (1000 / ((n : ℚ) + 1000)) * |C - avg| := by
  rw [shrink_key n 1000 avg C (by norm_num)]
  have h : avg + 1000 / ((n : ℚ) + 1000) * (C - avg) - avg =
      1000 / ((n : ℚ) + 1000) * (C - avg) := by ring
  rw [h, abs_mul, abs_of_pos (by positivity)]

/-- C5: holding `avg_rating` and `C` fixed (with `m = 1000`), the distance
`|weighted_rating - avg_rating|` is non-increasing in `rating_count`, and
strictly decreasing when `avg_rating ≠ C`. -/
theorem shrink_monotone_convergence (avg C : ℚ) (n1 n2 : ℕ) (h : n1 ≤ n2) :
    |shrink n2 1000 avg C - avg| ≤ |shrink n1 1000 avg C - avg| ∧
      (avg ≠ C → n1 < n2 →
        |shrink n2 1000 avg C - avg| < |shrink n1 1000 avg C - avg|) := by
  rw [shrink_dist, shrink_dist]
  have h1 : (0 : ℚ) < (n1 : ℚ) + 1000 := by positivity
  have h2 : (0 : ℚ) < (n2 : ℚ) + 1000 := by positivity
  constructor
  · have hdiv : (1000 : ℚ) / ((n2 : ℚ) + 1000) ≤ 1000 / ((n1 : ℚ) + 1000) := by
      rw [div_le_div_iff₀ h2 h1]
      have : (n1 : ℚ) ≤ (n2 : ℚ) := by exact_mod_cast h
      nlinarith
    exact mul_le_mul_of_nonneg_right hdiv (abs_nonneg _)
  · intro hne hlt
    have hdiv : (1000 : ℚ) / ((n2 : ℚ) + 1000) < 1000 / ((n1 : ℚ) + 1000) := by
      rw [div_lt_div_iff₀ h2 h1]
      have : (n1 : ℚ) < (n2 : ℚ) := by exact_mod_cast hlt
      nlinarith
    have habs : 0 < |C - avg| :=
      abs_pos.mpr (sub_ne_zero.mpr (Ne.symm hne))
    exact mul_lt_mul_of_pos_right hdiv habs

theorem shrink_monotone_convergence_witness :
    |shrink (2 : ℕ) 1000 5 3 - 5| ≤ |shrink (1 : ℕ) 1000 5 3 - 5| ∧
      ((5 : ℚ) ≠ 3 → (1 : ℕ) < 2 →
        |shrink (2 : ℕ) 1000 5 3 - 5| < |shrink (1 : ℕ) 1000 5 3 - 5|) :=
  shrink_monotone_convergence 5 3 1 2 (by norm_num)

/-! ### C9: frame of the scorer -/

/-- C9: the scorer returns the table it was given with a `weighted_rating`
column added: the `movieId`, `rating_count` and `avg_rating` columns and the
row order (and row count) are unchanged, and the new column holds the
shrinkage formula applied rowwise. The pandas in-place column assignment is
modelled by the returned rows coinciding with the argument's rows after the
call. -/
theorem bayesian_weighted_frame (stats : List MovieStats) (m : ℚ) :
    (bayesian_weighted stats m).map
        (fun r => (r.movieId, r.rating_count, r.avg_rating)) =
      stats.map (fun s => (s.movieId, s.rating_count, s.avg_rating)) ∧
    (bayesian_weighted stats m).map (fun r => r.weighted_rating) =
      stats.map
        (fun s => shrink s.rating_count m s.avg_rating (meanAvgRating stats)) ∧
    (bayesian_weighted stats m).length = stats.length := by
  refine ⟨?_, ?_, ?_⟩ <;> simp [bayesian_weighted, List.map_map]

/-! ### Catalog build (`main` in `Scripts/build_db.py`) -/

/-- A row of `movies.csv`: `movieId`, `title`, `genres`. -/
structure MovieRow where
  movieId : Int
  title : String
  genres : String
deriving DecidableEq, Repr

/-- A row of the merged catalog written to the store; `title`/`genres` are
NULL (`none`) for a scored movie with no metadata row. -/
structure CatalogEntry where
  movieId : Int
  title : Option String
  genres : Option String
  rating_count : Nat
  avg_rating : ℚ
  weighted_rating : ℚ
deriving DecidableEq, Repr

/-- `movies[["movieId", "title", "genres"]].drop_duplicates("movieId")`. -/
def dedupMovies (movies : List MovieRow) : List MovieRow :=
  drop_duplicates_by (fun mv => mv.movieId) movies

/-- The catalog rows contributed by one stats row of a left merge: one row
per metadata row with the same `movieId`, or a single row with NULL
`title`/`genres` when there is none. -/
def mergeBlock (movies : List MovieRow) (s : ScoredMovie) : List CatalogEntry :=
  match movies.filter (fun mv => mv.movieId == s.movieId) with
  | [] => [{ movieId := s.movieId, title := none, genres := none,
             rating_count := s.rating_count, avg_rating := s.avg_rating,
             weighted_rating := s.weighted_rating }]
  | ms => ms.map (fun mv =>
      { movieId := s.movieId, title := some mv.title,
        genres := some mv.genres, rating_count := s.rating_count,
        avg_rating := s.avg_rating,
        weighted_rating := s.weighted_rating })

/-- `stats.merge(movies, on="movieId", how="left")`: each stats row is kept
(in order) and paired with its metadata per `mergeBlock`. -/
def mergeLeft (stats : List ScoredMovie) (movies : List MovieRow) :
    List CatalogEntry :=
  (stats.map (mergeBlock movies)).flatten

/-- The write path of `main` in `Scripts/build_db.py`: clean, aggregate,
score with `m = 1000`, left-merge with the deduplicated metadata. -/
def buildCatalog (ratings : List RawRating) (movies : List MovieRow) :
    List CatalogEntry :=
  mergeLeft (bayesian_weighted (build_movie_stats (clean_ratings ratings)) 1000)
    (dedupMovies movies)

/-! ### C2: the catalog is a one-sided left join -/

theorem filter_key_length_le_one {α κ : Type} [DecidableEq κ] (key : α → κ) :
    ∀ (l : List α), ((l.map key).Nodup) → ∀ (k : κ),
      (l.filter (fun a => key a == k)).length ≤ 1 := by
  intro l
  induction l with
  | nil => intro _ k; simp
  | cons x xs ih =>
    intro hnd k
    simp only [List.map_cons, List.nodup_cons] at hnd
    by_cases hx : key x == k
    · have hxs : xs.filter (fun a => key a == k) = [] := by
        rw [List.filter_eq_nil_iff]
        intro a ha hak
        refine hnd.1 ?_
        have h1 : key x = k := by simpa using hx
        have h2 : key a = k := by simpa using hak
        exact List.mem_map.mpr ⟨a, ha, by rw [h2, h1]⟩
      simp [List.filter_cons, hx, hxs]
    · simp only [List.filter_cons, hx]
      simp only [Bool.false_eq_true, if_false]
      exact ih hnd.2 k

theorem mergeBlock_keys (movies : List MovieRow) (s : ScoredMovie)
    (h : (movies.map (fun mv => mv.movieId)).Nodup) :
    (mergeBlock movies s).map (fun e => e.movieId) = [s.movieId] := by
  unfold mergeBlock
  rcases hfil : movies.filter (fun mv => mv.movieId == s.movieId) with
    _ | ⟨mv, rest⟩
  · rw [hfil]
    simp
  · have hlen := filter_key_length_le_one (fun mv => mv.movieId) movies h
      s.movieId
    rw [hfil] at hlen
    have hrest : rest = [] := by
      cases rest with
      | nil => rfl
      | cons a b => simp at hlen
    subst hrest
    rw [hfil]
    simp

theorem mergeLeft_keys (stats : List ScoredMovie) (movies : List MovieRow)
    (h : (movies.map (fun mv => mv.movieId)).Nodup) :
    (mergeLeft stats movies).map (fun e => e.movieId) =
      stats.map (fun s => s.movieId) := by
  induction stats with
  | nil => simp [mergeLeft]
  | cons s ss ih =>
    simp only [mergeLeft, List.map_cons, List.flatten_cons, List.map_append]
    simp only [mergeLeft] at ih
    rw [ih, mergeBlock_keys movies s h]
    rfl

theorem mergeLeft_null_meta (stats : List ScoredMovie)
    (movies : List MovieRow) :
    ∀ e ∈ mergeLeft stats movies,
      (∀ mv ∈ movies, mv.movieId ≠ e.movieId) →
        e.title = none ∧ e.genres = none := by
  intro e he hno
  unfold mergeLeft at he
  rcases List.mem_flatten.mp he with ⟨blk, hblk, heblk⟩
  rcases List.mem_map.mp hblk with ⟨s, _, rfl⟩
  unfold mergeBlock at heblk
  rcases hfil : movies.filter (fun mv => mv.movieId == s.movieId) with
    _ | ⟨mv, rest⟩
  · rw [hfil] at heblk
    simp only [List.mem_singleton] at heblk
    subst heblk
    exact ⟨rfl, rfl⟩
  · rw [hfil] at heblk
    rcases List.mem_map.mp heblk with ⟨mv', hmv', rfl⟩
    have hmem : mv' ∈ movies.filter (fun mv => mv.movieId == s.movieId) := by
      rw [hfil]; exact hmv'
    have hkey : mv'.movieId = s.movieId := by
      simpa using List.of_mem_filter hmem
    exact absurd hkey (hno mv' (List.mem_of_mem_filter hmem))

/-- C2 (amended): every movieId of the scored stats appears in the catalog,
in stats order, with NULL title/genres when it has no metadata row; the merge
is left-only, so a movieId present only in the metadata does not appear. -/
theorem catalog_left_join (ratings : List RawRating) (movies : List MovieRow) :
    ((buildCatalog ratings movies).map (fun e => e.movieId) =
      (bayesian_weighted (build_movie_stats (clean_ratings ratings)) 1000).map
        (fun s => s.movieId)) ∧
    (∀ e ∈ buildCatalog ratings movies,
      (∀ mv ∈ movies, mv.movieId ≠ e.movieId) →
        e.title = none ∧ e.genres = none) := by
  constructor
  · exact mergeLeft_keys _ _ (drop_duplicates_by_keys_nodup _ movies)
  · intro e he hno
    refine mergeLeft_null_meta _ _ e he ?_
    intro mv hmv
    exact hno mv ((drop_duplicates_by_sublist _ movies).subset hmv)

theorem catalog_left_join_witness :
    (((buildCatalog [⟨some 1, some 1, some 5, none⟩] [⟨2, "B", "Drama"⟩]).map
        (fun e => e.movieId) =
      (bayesian_weighted
          (build_movie_stats
            (clean_ratings [⟨some 1, some 1, some 5, none⟩])) 1000).map
        (fun s => s.movieId)) ∧
    (∀ e ∈ buildCatalog [⟨some 1, some 1, some 5, none⟩] [⟨2, "B", "Drama"⟩],
      (∀ mv ∈ [(⟨2, "B", "Drama"⟩ : MovieRow)], mv.movieId ≠ e.movieId) →
        e.title = none ∧ e.genres = none)) :=
  catalog_left_join [⟨some 1, some 1, some 5, none⟩] [⟨2, "B", "Drama"⟩]

theorem scored_single_eval :
    bayesian_weighted
        (build_movie_stats (clean_ratings [⟨some 1, some 1, some 5, none⟩]))
        1000 = [⟨1, 1, 5, 5⟩] := by
  have hclean : clean_ratings [⟨some 1, some 1, some 5, none⟩] =
      [⟨some 1, some 1, some 5, none⟩] := by
    norm_num [clean_ratings, drop_duplicates_by, dedupBySeen, isAllEmpty,
      hasKeyFields, ratingInRange, List.filter]
  have hstats : build_movie_stats [⟨some 1, some 1, some 5, none⟩] =
      [⟨1, 1, 5⟩] := by
    norm_num [build_movie_stats, groupKeys, ratingsOf, List.filter,
      List.filterMap, List.dedup, List.insertionSort, List.orderedInsert,
      List.pwFilter]
  rw [hclean, hstats]
  simp only [bayesian_weighted, meanAvgRating, shrink, List.map_cons,
    List.map_nil, List.sum_cons, List.sum_nil, List.length_cons,
    List.length_nil]
  norm_num

/-- C2 (counterexample): a movieId present only in the metadata does not
appear in the catalog, refuting the metadata-to-catalog direction of the
claimed two-sided left-join semantics. -/
theorem catalog_not_outer_join :
    (2 : Int) ∈ ([⟨2, "B", "Drama"⟩] : List MovieRow).map
        (fun mv => mv.movieId) ∧
    (2 : Int) ∉
      (buildCatalog [⟨some 1, some 1, some 5, none⟩]
          [⟨2, "B", "Drama"⟩]).map (fun e => e.movieId) := by
  constructor
  · simp
  · have hcat : buildCatalog [⟨some 1, some 1, some 5, none⟩]
        [⟨2, "B", "Drama"⟩] = [⟨1, none, none, 1, 5, 5⟩] := by
      unfold buildCatalog
      rw [scored_single_eval]
      have hfil : (dedupMovies [⟨2, "B", "Drama"⟩]).filter
          (fun mv => mv.movieId == ScoredMovie.movieId ⟨1, 1, 5, 5⟩) = [] := by
        decide
      simp [mergeLeft, mergeBlock, hfil]
    rw [hcat]
    decide

/-! ### The query interface (`app/main.py`)

`LIKE` patterns built by the app are `f"%{x}%"` with `x` free of SQL
wildcards, i.e. substring matches; SQLite `LIKE` is case-insensitive on
ASCII, and a NULL column value makes the predicate NULL, which `WHERE`
drops. -/

/-- Python `str.strip()`: remove leading and trailing whitespace. -/
def stripChars (l : List Char) : List Char :=
  ((l.dropWhile Char.isWhitespace).reverse.dropWhile Char.isWhitespace).reverse

/-- Case-insensitive character equality, as SQLite `LIKE` compares ASCII. -/
def charEqCI (a b : Char) : Bool :=
  a.toLower == b.toLower

def startsWithCI : List Char → List Char → Bool
  | [], _ => true
  | _ :: _, [] => false
  | a :: ps, b :: ss => charEqCI a b && startsWithCI ps ss

def substrCI (pat : List Char) : List Char → Bool
  | [] => pat.isEmpty
  | c :: rest => startsWithCI pat (c :: rest) || substrCI pat rest

/-- `col LIKE '%pat%'` for a wildcard-free `pat`, under `WHERE`: substring
match, case-insensitive; a NULL column never matches. -/
def likeContains (pat : List Char) : Option String → Bool
  | none => false
  | some s => substrCI pat s.toList

/-- A row of the persisted `movies` table: the `movieId`/`title`/`genres`
projection of the merged frame, so `title` and `genres` are NULL for a
scored movie without a metadata row. -/
structure MovieTableRow where
  movieId : Int
  title : Option String
  genres : Option String
deriving DecidableEq, Repr

/-- The `/titles` endpoint: `q = f"%{query.strip()}%"` then
`SELECT movieId, title, genres FROM movies WHERE title LIKE ? LIMIT ?`. -/
def titlesQuery (moviesTable : List MovieTableRow) (query : String)
    (limit : Nat) : List MovieTableRow :=
  (moviesTable.filter
    (fun r => likeContains (stripChars query.toList) r.title)).take limit

/-! ### C10: empty or whitespace-only title query -/

theorem substrCI_nil (l : List Char) : substrCI [] l = true := by
  cases l with
  | nil => rfl
  | cons c rest => simp [substrCI, startsWithCI]

/-- C10 (amended): with an empty or whitespace-only query the pattern is
`"%%"`, which matches every non-NULL title, so the first `limit` rows whose
title is non-NULL are returned (NULL-title rows are dropped by `LIKE`'s NULL
semantics), not simply the first `limit` catalog rows. -/
theorem titles_empty_query (moviesTable : List MovieTableRow) (query : String)
    (limit : Nat) (h : stripChars query.toList = []) :
    titlesQuery moviesTable query limit =
      (moviesTable.filter (fun r => r.title.isSome)).take limit := by
  unfold titlesQuery
  rw [h]
  congr 1
  apply List.filter_congr
  intro r _
  cases ht : r.title with
  | none => simp [likeContains, ht]
  | some s => simp [likeContains, ht, substrCI_nil]

theorem titles_empty_query_witness :
    stripChars (String.toList " ") = [] ∧
      titlesQuery
          [⟨1, none, none⟩, ⟨2, some "A", some "G"⟩] " " 1 =
        (([⟨1, none, none⟩, ⟨2, some "A", some "G"⟩] :
            List MovieTableRow).filter (fun r => r.title.isSome)).take 1 :=
  ⟨by decide,
    titles_empty_query [⟨1, none, none⟩, ⟨2, some "A", some "G"⟩] " " 1
      (by decide)⟩

/-- C10 (counterexample): on a table whose first row has a NULL title, the
empty query does not return the first `limit` rows: the NULL-title row is
skipped. -/
theorem titles_empty_query_not_take :
    titlesQuery [⟨1, none, none⟩, ⟨2, some "A", some "G"⟩] "" 1 =
        [⟨2, some "A", some "G"⟩] ∧
      ([⟨1, none, none⟩, ⟨2, some "A", some "G"⟩] :
          List MovieTableRow).take 1 = [⟨1, none, none⟩] ∧
      titlesQuery [⟨1, none, none⟩, ⟨2, some "A", some "G"⟩] "" 1 ≠
        ([⟨1, none, none⟩, ⟨2, some "A", some "G"⟩] :
            List MovieTableRow).take 1 := by
  refine ⟨?_, rfl, ?_⟩ <;> decide

/-! ### Recommendation engine (`/recommendations`) -/

/-- `MOOD_TO_GENRES` from `app/main.py`; `MOOD_TO_GENRES.get(mood, [])`. -/
def MOOD_TO_GENRES (mood : String) : List String :=
  if mood == "calm" then ["Drama", "Romance"]
  else if mood == "fun" then ["Comedy"]
  else if mood == "intense" then ["Action", "Thriller"]
  else if mood == "sad" then ["Drama"]
  else if mood == "inspire" then ["Adventure", "Animation"]
  else []

/-- `mood.lower().strip()`. -/
def resolveMood (mood : String) : String :=
  String.mk (stripChars mood.toLower.toList)

/-- The response dict of the `/recommendations` endpoint. -/
structure RecResponse where
  mood : String
  genres_filter : List String
  k : Nat
  min_count : Int
  items : List CatalogEntry
deriving DecidableEq, Repr

/-- The `WHERE` clause shared by the two queries of `/recommendations`:
`s.rating_count >= min_count`, and — only in the genre-filtered query, i.e.
when the resolved genre list is non-empty — a disjunction of
`m.genres LIKE '%g%'` clauses. -/
def eligibleRows (catalog : List CatalogEntry) (genres : List String)
    (min_count : Int) : List CatalogEntry :=
  catalog.filter (fun e =>
    decide (min_count ≤ (e.rating_count : Int)) &&
      (genres.isEmpty || genres.any (fun g => likeContains g.toList e.genres)))

/-- `ORDER BY s.weighted_rating DESC` (ties in store order; SQLite fixes no
tiebreak). -/
def weightedDesc (a b : CatalogEntry) : Prop :=
  b.weighted_rating ≤ a.weighted_rating

instance : DecidableRel weightedDesc := fun a b =>
  inferInstanceAs (Decidable (b.weighted_rating ≤ a.weighted_rating))

instance : IsTotal CatalogEntry weightedDesc :=
  ⟨fun a b => le_total b.weighted_rating a.weighted_rating⟩

instance : IsTrans CatalogEntry weightedDesc :=
  ⟨fun _ _ _ hab hbc => le_trans hbc hab⟩

/-- The `/recommendations` endpoint over the joined catalog: resolve the
mood, filter by `min_count` (and genres when the mood is recognized), rank
by `weighted_rating` descending, truncate to `k` (`LIMIT ?`). -/
def recommendations (catalog : List CatalogEntry) (mood : String) (k : Nat)
    (min_count : Int) : RecResponse :=
  { mood := resolveMood mood
    genres_filter := MOOD_TO_GENRES (resolveMood mood)
    k := k
    min_count := min_count
    items := (List.insertionSort weightedDesc
        (eligibleRows catalog (MOOD_TO_GENRES (resolveMood mood))
          min_count)).take k }

/-! ### C8: eligibility, ordering and truncation of recommendations -/

/-- C8: every returned item has `rating_count ≥ min_count`; the items are in
non-increasing `weighted_rating` order; and the result is the truncation to
the first `k` entries, so its length is `min k (number of eligible rows)`
(with 10 eligible rows and `k = 3`, exactly 3 are returned). -/
theorem recommendations_spec (catalog : List CatalogEntry) (mood : String)
    (k : Nat) (min_count : Int) :
    (∀ e ∈ (recommendations catalog mood k min_count).items,
        min_count ≤ (e.rating_count : Int)) ∧
      List.Sorted weightedDesc (recommendations catalog mood k min_count).items ∧
      (recommendations catalog mood k min_count).items.length =
        min k (eligibleRows catalog (MOOD_TO_GENRES (resolveMood mood))
          min_count).length := by
  refine ⟨?_, ?_, ?_⟩
  · intro e he
    have h1 : e ∈ List.insertionSort weightedDesc
        (eligibleRows catalog (MOOD_TO_GENRES (resolveMood mood)) min_count) :=
      (List.take_sublist _ _).subset he
    have h2 : e ∈ eligibleRows catalog (MOOD_TO_GENRES (resolveMood mood))
        min_count :=
      (List.perm_insertionSort weightedDesc _).subset h1
    have h3 := List.of_mem_filter h2
    simp only [Bool.and_eq_true, decide_eq_true_eq] at h3
    exact h3.1
  · exact List.Pairwise.sublist (List.take_sublist _ _)
      (List.sorted_insertionSort weightedDesc _)
  · have hlen := (List.perm_insertionSort weightedDesc
      (eligibleRows catalog (MOOD_TO_GENRES (resolveMood mood))
        min_count)).length_eq
    simp [recommendations, List.length_take, hlen]

theorem recommendations_spec_witness :
    (∀ e ∈ (recommendations [⟨1, some "A", some "Comedy", 60, 4, 4⟩]
        "fun" 3 50).items, (50 : Int) ≤ (e.rating_count : Int)) ∧
      List.Sorted weightedDesc
        (recommendations [⟨1, some "A", some "Comedy", 60, 4, 4⟩]
          "fun" 3 50).items ∧
      (recommendations [⟨1, some "A", some "Comedy", 60, 4, 4⟩]
            "fun" 3 50).items.length =
        min 3 (eligibleRows [⟨1, some "A", some "Comedy", 60, 4, 4⟩]
          (MOOD_TO_GENRES (resolveMood "fun")) 50).length :=
  recommendations_spec [⟨1, some "A", some "Comedy", 60, 4, 4⟩] "fun" 3 50

end MovieLens
